import Mathlib

/-!
Verification of the Goodreads backup script (backup_goodreads.py).

The Python source is shallowly embedded: pure fragments become Lean
functions over List Char / String / Nat / Int; code that can raise a
Python exception returns a PyResult; binary64 float arithmetic (used by
the progress-percentage computation) is modelled exactly over integer
mantissa/exponent pairs; the paginated status loop becomes a fuel-indexed
step function (fuel exhaustion models non-termination).
-/

/-- Result of running a piece of Python code: either a value or an
uncaught exception (identified by a short message). -/
inductive PyResult (α : Type) where
  | ok (val : α)
  | exn (msg : String)
  deriving DecidableEq, Repr

namespace GoodreadsBackup

/-! ## Python string primitives used by the script -/

/-- Python str.strip with no argument: remove leading and trailing
whitespace characters. -/
def pyStripChars (l : List Char) : List Char :=
  ((l.dropWhile Char.isWhitespace).reverse.dropWhile Char.isWhitespace).reverse

/-- Python str.strip on a String. -/
def pyStrip (s : String) : String :=
  String.mk (pyStripChars s.data)

/-- Numeric value of a list of decimal digit characters. -/
def digitsVal (l : List Char) : ℕ :=
  l.foldl (fun a c => 10 * a + (c.toNat - 48)) 0

/-- Python int(s) for a string s: optional surrounding whitespace, an
optional sign, then one or more ASCII decimal digits; anything else
raises ValueError.  (Digit-group underscores and non-ASCII digits,
which the script never produces, are not modelled.) -/
def pyInt (s : String) : PyResult ℤ :=
  match pyStripChars s.data with
  | [] => .exn "ValueError"
  | '-' :: ds =>
      if ds ≠ [] ∧ ds.all Char.isDigit then .ok (-(digitsVal ds : ℤ))
      else .exn "ValueError"
  | '+' :: ds =>
      if ds ≠ [] ∧ ds.all Char.isDigit then .ok (digitsVal ds : ℤ)
      else .exn "ValueError"
  | ds =>
      if ds.all Char.isDigit then .ok (digitsVal ds : ℤ)
      else .exn "ValueError"

/-- Python s.split(sep) for a non-empty separator, on lists of
characters: split at each leftmost non-overlapping occurrence of sep.
The fuel argument bounds the number of consumed characters; fuel equal
to the length of the input is always sufficient. -/
def pySplitAux (sep : List Char) : ℕ → List Char → List Char → List (List Char)
  | 0, acc, rest => [acc.reverse ++ rest]
  | fuel + 1, acc, rest =>
    match rest with
    | [] => [acc.reverse]
    | c :: cs =>
        if sep.isPrefixOf (c :: cs) then
          acc.reverse :: pySplitAux sep fuel [] ((c :: cs).drop sep.length)
        else
          pySplitAux sep fuel (c :: acc) cs

/-- Python s.split(sep) on Strings. -/
def pySplit (s : String) (sep : String) : List String :=
  (pySplitAux sep.data s.data.length [] s.data).map String.mk

/-- Substring occurrence test on character lists. -/
def isInfixList (needle : List Char) : List Char → Bool
  | [] => needle.isEmpty
  | c :: cs => needle.isPrefixOf (c :: cs) || isInfixList needle cs

/-- Python "needle in haystack" on strings. -/
def pyContains (haystack needle : String) : Bool :=
  isInfixList needle.data haystack.data

/-! ## The progress regular expression

The script matches the header sentence against the Python pattern

  .* is (?:on page )?(\d*%?) (?:of (\d*) of|done with) .*

with re.S (re.search).  Because the pattern starts with a greedy ".*",
a match exists iff one exists starting at position 0, and backtracking
tries the candidate positions of the literal " is " from right to left.
The functions below reproduce that backtracking order exactly; the
result is (group 1, group 2). -/

/-- The tail of the pattern after group 1 and the following space:
"(?:of (\d*) of|done with) .*".  Returns the value of group 2
(some d2 for the first alternative, none for "done with"). -/
def matchAlt (u : List Char) : Option (Option (List Char)) :=
  let alt1 : Option (Option (List Char)) :=
    if "of ".data.isPrefixOf u then
      let v := u.drop 3
      let d2 := v.takeWhile Char.isDigit
      let v2 := v.dropWhile Char.isDigit
      if " of ".data.isPrefixOf v2 then some (some d2) else none
    else none
  match alt1 with
  | some r => some r
  | none => if "done with ".data.isPrefixOf u then some none else none

/-- The part of the pattern from group 1 on: "(\d*%?) (?:...) .*".
The greedy "\d*" takes the maximal digit run; "%?" greedily takes a
percent sign when present (the fallback without it can never succeed,
because the pattern then requires a space where the percent sign
stands). -/
def matchValue (t : List Char) : Option (List Char × Option (List Char)) :=
  let ds := t.takeWhile Char.isDigit
  let r1 := t.dropWhile Char.isDigit
  let withPct : Option (List Char × Option (List Char)) :=
    match r1 with
    | '%' :: ' ' :: u =>
        match matchAlt u with
        | some g2 => some (ds ++ ['%'], g2)
        | none => none
    | _ => none
  match withPct with
  | some r => some r
  | none =>
    match r1 with
    | ' ' :: u =>
        match matchAlt u with
        | some g2 => some (ds, g2)
        | none => none
    | _ => none

/-- The part of the pattern after the literal " is ":
"(?:on page )?(\d*%?) ...".  The optional group is greedy: with an
"on page " prefix present the engine first tries to consume it, and
falls back to leaving it unconsumed. -/
def matchAfterIs (t : List Char) : Option (List Char × Option (List Char)) :=
  let withPage : Option (List Char × Option (List Char)) :=
    if "on page ".data.isPrefixOf t then matchValue (t.drop 8) else none
  match withPage with
  | some r => some r
  | none => matchValue t

/-- Try the literal " is " at position p of s (the leading ".*" having
consumed p characters) and match the rest of the pattern there. -/
def tryAt (s : List Char) (p : ℕ) : Option (List Char × Option (List Char)) :=
  let rest := s.drop p
  if " is ".data.isPrefixOf rest then matchAfterIs (rest.drop 4) else none

/-- Scan the candidate positions for " is " from right to left (the
backtracking order of the greedy leading ".*"). -/
def searchAux (s : List Char) : ℕ → Option (List Char × Option (List Char))
  | 0 => tryAt s 0
  | p + 1 =>
    match tryAt s (p + 1) with
    | some r => some r
    | none => searchAux s p

/-- re.search of the progress pattern against a sentence; returns
(group 1, group 2) of the match Python finds, or none. -/
def searchProgress (s : String) : Option (String × Option String) :=
  match searchAux s.data s.data.length with
  | some (g1, g2) => some (String.mk g1, g2.map String.mk)
  | none => none

/-! ## Exact model of the binary64 arithmetic in the percentage computation

The page-number branch of the extractor runs

  int(int(page_no) / int(total_pages) * 100)

where "/" is Python float (IEEE-754 binary64) true division, "* 100" a
binary64 multiplication, and int() truncation toward zero.  A positive
binary64 value is represented here as an exact mantissa/exponent pair
(m, e) of value m * 2 ^ (e - 52); each operation rounds the exact
rational result to nearest, ties to even.  The model is exact on the
normal range (all values reachable from page ratios in [0, 1] scaled by
100 stay far from the subnormal and overflow thresholds). -/

/-- Floor of log2 of a positive natural, by repeated halving (the fuel
is an upper bound on the recursion depth; fuel = n always suffices). -/
def log2Fuel : ℕ → ℕ → ℕ
  | 0, _ => 0
  | fuel + 1, n => if n ≤ 1 then 0 else log2Fuel fuel (n / 2) + 1

/-- Floor of log2 of a positive natural. -/
def natLog2 (n : ℕ) : ℕ := log2Fuel n n

/-- Least k with d ≤ n * 2 ^ k, for 0 < n (fuel = d suffices). -/
def clog2Fuel : ℕ → ℕ → ℕ → ℕ
  | 0, _, _ => 0
  | fuel + 1, n, d => if d ≤ n then 0 else clog2Fuel fuel (2 * n) d + 1

/-- Floor of log2 of the positive rational n / d. -/
def fracLog2 (n d : ℕ) : ℤ :=
  if d ≤ n then (natLog2 (n / d) : ℤ) else -(clog2Fuel d n d : ℤ)

/-- Round the rational N / D (D > 0) to the nearest integer, ties to
even. -/
def roundNearestEven (N D : ℕ) : ℕ :=
  let q := N / D
  let r := N % D
  if 2 * r < D then q
  else if D < 2 * r then q + 1
  else if q % 2 = 0 then q else q + 1

/-- Nearest binary64 to the positive rational n / d, as a
mantissa/exponent pair (m, e) of value m * 2 ^ (e - 52). -/
def fpRound (n d : ℕ) : ℕ × ℤ :=
  let e := fracLog2 n d
  if e ≤ 52 then (roundNearestEven (n * 2 ^ (52 - e).toNat) d, e)
  else (roundNearestEven n (d * 2 ^ (e - 52).toNat), e)

/-- Python true division a / b of nonnegative integers (b > 0): the
correctly rounded binary64 quotient. -/
def fpOfFrac (n d : ℕ) : ℕ × ℤ :=
  if n = 0 then (0, 0) else fpRound n d

/-- Binary64 multiplication of a nonnegative double by an exact small
natural constant: round the exact product. -/
def fpMulNat (p : ℕ × ℤ) (c : ℕ) : ℕ × ℤ :=
  if p.1 * c = 0 then (0, 0)
  else if 52 ≤ p.2 then fpRound (p.1 * c * 2 ^ (p.2 - 52).toNat) 1
  else fpRound (p.1 * c) (2 ^ (52 - p.2).toNat)

/-- Python int() truncation of a nonnegative double. -/
def fpTruncNat (p : ℕ × ℤ) : ℕ :=
  if 52 ≤ p.2 then p.1 * 2 ^ (p.2 - 52).toNat else p.1 / 2 ^ (52 - p.2).toNat

/-- int(a / b * 100) for nonnegative integers a, b (b > 0), with "/" as
Python float division: the percentage computed by the extractor. -/
def pyPercentage (a b : ℕ) : ℕ :=
  fpTruncNat (fpMulNat (fpOfFrac a b) 100)

/-! ## The progress branch of the status extractor -/

/-- The progress-related fields of the status record built by
_extract_status_from_element (lines 342-360): percentage always,
page_no and total_pages only in the page-number branch. -/
structure Progress where
  percentage : ℤ
  page_no : Option ℤ
  total_pages : Option ℤ
  deriving DecidableEq, Repr

/-- Lines 342-360 of _extract_status_from_element: match the header
sentence against the progress pattern and build the progress fields.
Mirrors the Python branch structure exactly, including the exceptions:
group(1)[-1] on an empty group raises IndexError, int() of a non-digit
or empty string raises ValueError, int(None) for a missing group 2
raises TypeError, and a zero total page count raises
ZeroDivisionError. -/
def extractProgress (progress_text : String) : PyResult Progress :=
  match searchProgress progress_text with
  | none =>
      if pyContains progress_text "finished" then .ok ⟨100, none, none⟩
      else .ok ⟨0, none, none⟩
  | some (g1, g2) =>
      match g1.data.getLast? with
      | none => .exn "IndexError"
      | some last =>
          if last = '%' then
            match pyInt (String.mk g1.data.dropLast) with
            | .ok v => .ok ⟨v, none, none⟩
            | .exn m => .exn m
          else
            match g2 with
            | none => .exn "TypeError"
            | some d2 =>
                match pyInt g1 with
                | .exn m => .exn m
                | .ok a =>
                    match pyInt d2 with
                    | .exn m => .exn m
                    | .ok b =>
                        if b = 0 then .exn "ZeroDivisionError"
                        else .ok ⟨(pyPercentage a.toNat b.toNat : ℤ), some a, some b⟩

/-! ## HTML nodes and the book-link extraction (lines 327-330)

A rendered HTML fragment is a tree of elements (tag, attributes,
children) and text nodes.  BeautifulSoup element.find(tag, attrs)
returns the first descendant, in document order, whose tag and
attributes match; element.text concatenates all descendant strings in
document order. -/

inductive Node where
  | text (s : String)
  | elem (tag : String) (attrs : List (String × String)) (children : List Node)

/-- Children of a node (a text node has none). -/
def Node.childrenOf : Node → List Node
  | .text _ => []
  | .elem _ _ cs => cs

/-- Attribute lookup on an element node. -/
def Node.attr : Node → String → Option String
  | .text _, _ => none
  | .elem _ attrs _, k => attrs.lookup k

/-- One level of the preorder descendant search: scan a forest,
descending into children with the searcher for one lower depth. -/
def findDepthList (p : Node → Bool) (findBelow : List Node → Option Node) :
    List Node → Option Node
  | [] => none
  | n :: rest =>
    if p n then some n
    else
      match n with
      | .text _ => findDepthList p findBelow rest
      | .elem _ _ cs =>
          match findBelow cs with
          | some r => some r
          | none => findDepthList p findBelow rest

/-- BeautifulSoup find over the descendants of a forest, in document
order.  The fuel bounds the descent depth; any fuel at least the height
of the tree gives the exact BeautifulSoup behaviour. -/
def findDepth (p : Node → Bool) : ℕ → List Node → Option Node
  | 0, _ => none
  | fuel + 1, ns => findDepthList p (findDepth p fuel) ns

/-- BeautifulSoup element.text restricted to depth fuel: concatenation
of all string descendants in document order. -/
def textDepth : ℕ → Node → String
  | _, .text s => s
  | 0, .elem _ _ _ => ""
  | fuel + 1, .elem _ _ cs => String.join (cs.map (textDepth fuel))

/-- The predicate of progress_element.find("a", {"rel": "nofollow"}). -/
def isNofollowLink : Node → Bool
  | .text _ => false
  | .elem tag attrs _ => tag == "a" && attrs.lookup "rel" == some "nofollow"

/-- convert_body: element.text.strip(). -/
def convert_body (fuel : ℕ) (n : Node) : String :=
  pyStrip (textDepth fuel n)

/-- Line 330: book_title_link["href"].split("/")[-1].split("-.")[0]. -/
def bookIdOfHref (href : String) : String :=
  (pySplit ((pySplit href "/").getLastD "") "-.").headD ""

/-- Lines 327-330 of _extract_status_from_element: locate the inner
rel="nofollow" link of the header sub-block, take its stripped text as
the book title and derive the book identifier from its href.  A missing
link raises (convert_body of None is an AttributeError); a link without
an href raises KeyError. -/
def extractBookInfo (fuel : ℕ) (progress_element : Node) :
    PyResult (String × String) :=
  match findDepth isNofollowLink fuel progress_element.childrenOf with
  | none => .exn "AttributeError"
  | some link =>
      match link.attr "href" with
      | none => .exn "KeyError"
      | some href => .ok (convert_body fuel link, bookIdOfHref href)

/-- The prefix of a list up to (excluding) the first occurrence of a
separator, or the whole list when the separator does not occur. -/
def specCutAt (sep : List Char) : List Char → List Char
  | [] => []
  | c :: cs => if sep.isPrefixOf (c :: cs) then [] else c :: specCutAt sep cs

/-- The book identifier as the specification words it: the final path
segment of the link target, with any trailing suffix introduced by the
numeric-ID/dot separator "-." stripped (the segment up to the first
occurrence of "-."). -/
def specBookIdentifier (href : String) : String :=
  let segment : List Char := ((pySplitAux "/".data href.data.length [] href.data).getLastD [])
  String.mk (specCutAt "-.".data segment)

/-! ## The HTTP fetch checks (lines 199-204 and 219-224) -/

/-- An HTTP response: status code and body text. -/
structure HttpResponse where
  status_code : ℕ
  text : String
  deriving DecidableEq, Repr

/-- The exception raised on an unexpected status: it carries the status
code and the response body. -/
structure FetchError where
  status_code : ℕ
  body : String
  deriving DecidableEq, Repr

/-- Outcome of a fetch helper: the response, or the raised error. -/
inductive FetchOutcome where
  | ok (resp : HttpResponse)
  | error (e : FetchError)
  deriving DecidableEq, Repr

/-- Lines 199-204 of _get_data_from_goodreads_api: raise unless the
status code is exactly 200, otherwise return the response. -/
def get_data_from_goodreads_api (req : HttpResponse) : FetchOutcome :=
  if req.status_code ≠ 200 then .error ⟨req.status_code, req.text⟩ else .ok req

/-- Lines 219-224 of _get_data_from_goodreads_site: the same check. -/
def get_data_from_goodreads_site (req : HttpResponse) : FetchOutcome :=
  if req.status_code ≠ 200 then .error ⟨req.status_code, req.text⟩ else .ok req

/-! ## convert_page_count (lines 139-143) -/

/-- Lines 139-143: try int(element.text) and return None on TypeError.
int(None) raises TypeError (caught, giving None); int() of a present
but non-numeric string raises ValueError, which the except clause does
not catch. -/
def convert_page_count (text : Option String) : PyResult (Option ℤ) :=
  match text with
  | none => .ok none
  | some s =>
      match pyInt s with
      | .ok n => .ok (some n)
      | .exn m => .exn m

/-! ## Review conversion (get_reviews, lines 245-266) and the review
writer (write_reviews_to_disk, lines 413-425)

Review XML elements are trees of (tag, text, attributes, children);
converted records are Python dicts, modelled as insertion-ordered
association lists.  Values are the Python values the converters
produce. -/

/-- A Python value stored in a review record. -/
inductive PyVal where
  | none
  | int (n : ℤ)
  | str (s : String)
  | list (l : List (Option String))
  deriving DecidableEq, Repr

/-- Python truthiness of the stored values (None, 0, "", [] are
falsy). -/
def truthy : PyVal → Bool
  | .none => false
  | .int n => n != 0
  | .str s => s != ""
  | .list l => !l.isEmpty

/-- An XML element: tag, text content, attributes, children. -/
inductive Xml where
  | node (tag : String) (textVal : Option String) (attrs : List (String × String))
      (children : List Xml)

def Xml.tag : Xml → String
  | .node t _ _ _ => t

def Xml.textVal : Xml → Option String
  | .node _ x _ _ => x

def Xml.attrList : Xml → List (String × String)
  | .node _ _ a _ => a

def Xml.childList : Xml → List Xml
  | .node _ _ _ c => c

/-- A converted record: a Python dict as an insertion-ordered
association list. -/
abbrev ReviewDict := List (String × PyVal)

/-- Python dict assignment data[key] = value: overwrite in place when
the key exists, else append. -/
def dictSet (d : ReviewDict) (k : String) (v : PyVal) : ReviewDict :=
  if (d.lookup k).isSome then
    d.map (fun kv => if kv.1 = k then (k, v) else kv)
  else d ++ [(k, v)]

/-- identity (line 63): return element.text (None stays None). -/
def convert_identity (e : Xml) : PyResult PyVal :=
  match e.textVal with
  | none => .ok .none
  | some s => .ok (.str s)

/-- convert_date_from_api (lines 68-81): None stays None; a date string
is reparsed and printed as ISO-8601 UTC.  The reformatting itself is
irrelevant to every claim and is modelled as the identity on the
text. -/
def convert_date_from_api (e : Xml) : PyResult PyVal :=
  match e.textVal with
  | none => .ok .none
  | some s => .ok (.str s)

/-- convert_rating (lines 94-103): "0" becomes None, any other text is
parsed as an integer (int(None) raises TypeError, a non-numeric text
raises ValueError). -/
def convert_rating (e : Xml) : PyResult PyVal :=
  match e.textVal with
  | none => .exn "TypeError"
  | some s =>
      if s = "0" then .ok .none
      else
        match pyInt s with
        | .ok n => .ok (.int n)
        | .exn m => .exn m

/-- convert_body for review text (lines 146-147): element.text.strip()
(None.strip() raises AttributeError). -/
def convert_review_body (e : Xml) : PyResult PyVal :=
  match e.textVal with
  | none => .exn "AttributeError"
  | some s => .ok (.str (pyStrip s))

/-- The author-name comprehension of convert_authors: the name text of
each author element (a missing name child makes None.text raise
AttributeError; a name without text contributes None). -/
def authorNames : List Xml → PyResult (List (Option String))
  | [] => .ok []
  | a :: rest =>
      match (a.childList.find? (fun c => c.tag == "name")) with
      | none => .exn "AttributeError"
      | some nameElt =>
          match authorNames rest with
          | .ok l => .ok (nameElt.textVal :: l)
          | .exn m => .exn m

/-- convert_authors (lines 106-124): the name texts of the author
children. -/
def convert_authors (e : Xml) : PyResult PyVal :=
  match authorNames (e.childList.filter (fun c => c.tag == "author")) with
  | .ok l => .ok (.list l)
  | .exn m => .exn m

/-- The shelf-name comprehension of convert_shelves: the name
attribute of each shelf element (a missing attribute raises
KeyError). -/
def shelfNames : List Xml → PyResult (List (Option String))
  | [] => .ok []
  | sh :: rest =>
      match sh.attrList.lookup "name" with
      | none => .exn "KeyError"
      | some s =>
          match shelfNames rest with
          | .ok l => .ok (some s :: l)
          | .exn m => .exn m

/-- convert_shelves (lines 127-136): the name attributes of the shelf
children (a missing name attribute raises KeyError). -/
def convert_shelves (e : Xml) : PyResult PyVal :=
  match shelfNames (e.childList.filter (fun c => c.tag == "shelf")) with
  | .ok l => .ok (.list l)
  | .exn m => .exn m

/-- convert_page_count adapted to a PyVal. -/
def convert_page_count_val (e : Xml) : PyResult PyVal :=
  match convert_page_count e.textVal with
  | .ok none => .ok .none
  | .ok (some n) => .ok (.int n)
  | .exn m => .exn m

/-- REVIEW_TAGS (lines 156-162): map from review child tag to output
key and converter. -/
def review_tags (tag : String) : Option (String × (Xml → PyResult PyVal)) :=
  if tag = "read_at" then some ("date_read", convert_date_from_api)
  else if tag = "date_added" then some ("date_added", convert_date_from_api)
  else if tag = "body" then some ("review", convert_review_body)
  else if tag = "rating" then some ("my_rating", convert_rating)
  else if tag = "shelves" then some ("bookshelves", convert_shelves)
  else none

/-- BOOK_TAGS (lines 165-177): map from book child tag to output key
and converter. -/
def book_tags (tag : String) : Option (String × (Xml → PyResult PyVal)) :=
  if tag = "authors" then some ("authors", convert_authors)
  else if tag = "id" then some ("book_id", convert_identity)
  else if tag = "title" then some ("title", convert_identity)
  else if tag = "isbn" then some ("isbn", convert_identity)
  else if tag = "isbn13" then some ("isbn13", convert_identity)
  else if tag = "average_rating" then some ("average_rating", convert_identity)
  else if tag = "publisher" then some ("publisher", convert_identity)
  else if tag = "format" then some ("binding", convert_identity)
  else if tag = "num_pages" then some ("page_count", convert_page_count_val)
  else if tag = "publication_year" then some ("publication_year", convert_identity)
  else if tag = "published" then some ("orig_year_published", convert_identity)
  else none

/-- The inner convert helper (lines 255-258): a whitelisted tag adds
its converted value under the mapped key; any other tag is a no-op. -/
def convertTag (mapping : String → Option (String × (Xml → PyResult PyVal)))
    (e : Xml) (data : ReviewDict) : PyResult ReviewDict :=
  match mapping e.tag with
  | none => .ok data
  | some (key, conv) =>
      match conv e with
      | .ok v => .ok (dictSet data key v)
      | .exn m => .exn m

/-- Fold convertTag over a list of elements. -/
def convertList (mapping : String → Option (String × (Xml → PyResult PyVal))) :
    List Xml → ReviewDict → PyResult ReviewDict
  | [], data => .ok data
  | e :: es, data =>
      match convertTag mapping e data with
      | .ok d => convertList mapping es d
      | .exn m => .exn m

/-- Lines 260-265: one child of the review element; the book child is
expanded with BOOK_TAGS, every other child goes through
REVIEW_TAGS. -/
def reviewStep (e : Xml) (data : ReviewDict) : PyResult ReviewDict :=
  if e.tag = "book" then convertList book_tags e.childList data
  else convertTag review_tags e data

/-- Fold reviewStep over the review children. -/
def reviewLoop : List Xml → ReviewDict → PyResult ReviewDict
  | [], data => .ok data
  | e :: es, data =>
      match reviewStep e data with
      | .ok d => reviewLoop es d
      | .exn m => .exn m

/-- The record get_reviews builds for one review element (lines
252-266). -/
def convertReview (review : Xml) : PyResult ReviewDict :=
  reviewLoop review.childList []

/-- The filter condition of write_reviews_to_disk (line 424):
d["my_rating"] or d["review"], with Python or short-circuiting and
KeyError on a missing key. -/
def keepReview (d : ReviewDict) : PyResult Bool :=
  match d.lookup "my_rating" with
  | none => .exn "KeyError: my_rating"
  | some r =>
      if truthy r then .ok true
      else
        match d.lookup "review" with
        | none => .exn "KeyError: review"
        | some b => .ok (truthy b)

/-- The list comprehension of line 424, evaluated left to right; an
exception aborts the whole filter. -/
def filterEmptyReviews : List ReviewDict → PyResult (List ReviewDict)
  | [] => .ok []
  | d :: ds =>
      match keepReview d with
      | .exn m => .exn m
      | .ok keep =>
          match filterEmptyReviews ds with
          | .exn m => .exn m
          | .ok rest => .ok (if keep then d :: rest else rest)

/-- write_reviews_to_disk (lines 413-425), up to serialization: the
list of records it writes. -/
def write_reviews_to_disk (reviews : List ReviewDict) (keep_empty : Bool) :
    PyResult (List ReviewDict) :=
  if keep_empty then .ok reviews else filterEmptyReviews reviews

/-! ## The status pagination loop (get_statuses, lines 365-396) -/

/-- Python s.split() with no argument: split on whitespace runs,
dropping empty tokens.  Fuel equal to the input length suffices. -/
def pySplitWsAux : ℕ → List Char → List (List Char)
  | 0, _ => []
  | fuel + 1, l =>
      let l1 := l.dropWhile Char.isWhitespace
      match l1 with
      | [] => []
      | _ :: _ =>
          (l1.takeWhile (fun c => !c.isWhitespace)) ::
            pySplitWsAux fuel (l1.dropWhile (fun c => !c.isWhitespace))

/-- Line 380-381: take the token after the last whitespace of the
header string and parse it as an integer ("Showing 1-30 of 123" gives
123); an empty header raises IndexError on [-1]. -/
def parseStatusTotal (headerText : String) : PyResult ℤ :=
  match (pySplitWsAux headerText.data.length (pyStripChars headerText.data)).getLast? with
  | none => .exn "IndexError"
  | some tok => pyInt (String.mk tok)

/-- One fetched statuses page: the header text (only read on page 0)
and the status block elements found on the page, with elements kept
abstract. -/
structure StatusPage (α : Type) where
  headerText : String
  elements : List α

/-- The while loop of lines 386-394: while the accumulator is shorter
than the declared total, fetch the next page (indices 1, 2, ... since
page 0 was consumed by the initial fetch), extract all its status
blocks and append their records.  The fuel bounds the number of loop
iterations: a result of none for every fuel is an unbounded loop. -/
def statusLoop (extract : α → β) (site : ℕ → StatusPage α) (total : ℕ) :
    ℕ → List β → ℕ → Option (List β)
  | 0, statuses, _ =>
      if total ≤ statuses.length then some statuses else none
  | fuel + 1, statuses, k =>
      if total ≤ statuses.length then some statuses
      else
        statusLoop extract site total fuel
          (statuses ++ (site k).elements.map extract) (k + 1)

/-- The records extracted from n consecutive pages starting at page k:
what the loop body appends over its iterations. -/
def fetchedRecords (extract : α → β) (site : ℕ → StatusPage α) : ℕ → ℕ → List β
  | _, 0 => []
  | k, n + 1 => (site k).elements.map extract ++ fetchedRecords extract site (k + 1) n

/-- get_statuses (lines 365-396): fetch page 0, parse the declared
total from its header, then run the loop from page 1 with an empty
accumulator.  (A negative parsed total never enters the loop, exactly
like its toNat.) -/
def get_statuses (extract : α → β) (site : ℕ → StatusPage α) (fuel : ℕ) :
    PyResult (Option (List β)) :=
  match parseStatusTotal (site 0).headerText with
  | .exn m => .exn m
  | .ok t => .ok (statusLoop extract site t.toNat fuel [] 1)


/-! ## Concrete fixtures used by witnesses and counterexamples -/

/-- The book link of the header fragment documented in the source
comment (lines 302-319). -/
def demoBookLink : Node :=
  .elem "a"
    [("href", "https://www.goodreads.com/book/show/11.The_Hitchhikers_Guide"),
     ("rel", "nofollow")]
    [.text "The Hitchhikers Guide to the Galaxy"]

/-- The user_status_header span of that fragment. -/
def demoHeader : Node :=
  .elem "span"
    [("class", "uitext greyText inlineblock stacked user_status_header")]
    [.elem "a" [("href", "/user/show/1234-johnsmith")] [.text "John Smith"],
     .text " is on page 18 of 216 of ",
     demoBookLink]

/-- A site whose page 0 declares one status and carries a block that
does not reappear on page 1. -/
def demoSite : ℕ → StatusPage String :=
  fun k =>
    if k = 0 then ⟨"Showing 1-1 of 1", ["page0 block"]⟩
    else ⟨"", ["page1 block"]⟩

/-- A site declaring zero statuses. -/
def demoEmptySite : ℕ → StatusPage String :=
  fun _ => ⟨"Showing 0-0 of 0", []⟩


/-- A review element carrying only a rating of 4 (no body child). -/
def demoRatingOnlyReview : Xml :=
  .node "review" none [] [.node "rating" (some "4") [] []]

/-- A review element carrying only a review body (no rating child). -/
def demoBodyOnlyReview : Xml :=
  .node "review" none [] [.node "body" (some " Nice book. ") [] []]

/-! ## Claims about the progress-sentence branches -/

/-- C1: for each of the four recognized shapes of the status header
sentence the progress branch returns the documented result: a
percent-done sentence yields that percentage, a page sentence yields
the page numbers and their floor percentage, a plain reading sentence
(no pattern match, no "finished") yields 0, and a finished sentence
(no pattern match, contains "finished") yields 100. -/
theorem c1_progress_shapes :
    extractProgress "John Smith is 42% done with The Hobbit" =
      .ok ⟨42, none, none⟩ ∧
    extractProgress "John Smith is on page 54 of 216 of The Hobbit" =
      .ok ⟨25, some 54, some 216⟩ ∧
    extractProgress "John Smith is reading The Hobbit" =
      .ok ⟨0, none, none⟩ ∧
    extractProgress "John Smith is finished with The Hobbit" =
      .ok ⟨100, none, none⟩ := by
  refine ⟨by decide, by decide, by decide, by decide⟩

/-- C2: at page 29 of 100 the extractor stores page_no 29 and
total_pages 100 but computes percentage 28, because
int(29 / 100 * 100) truncates the binary64 product
28.999999999999996; the exact integer floor of 29 / 100 * 100 claimed
by the specification is 29. -/
theorem c2_percentage_is_float_truncation :
    extractProgress "John Smith is on page 29 of 100 of The Hobbit" =
      .ok ⟨28, some 29, some 100⟩ ∧
    (29 * 100 / 100 : ℤ) = 29 := by
  refine ⟨by decide, by decide⟩

/-- C9: a page sentence with a declared total of zero pages drives the
percentage computation into a division by zero, so the extraction
raises ZeroDivisionError instead of producing a record. -/
theorem c9_zero_total_pages_divides_by_zero :
    extractProgress "John Smith is on page 5 of 0 of The Hobbit" =
      .exn "ZeroDivisionError" := by decide

/-! ## Claims about the HTTP fetch checks -/

/-- C7 counterexample: status 201 is a success (2xx) status, yet both
fetch helpers raise on it, so "error if and only if not 2xx" fails on
the code. -/
theorem c7_counterexample_201_is_2xx_but_raises :
    get_data_from_goodreads_api ⟨201, "Created"⟩ = .error ⟨201, "Created"⟩ ∧
    get_data_from_goodreads_site ⟨201, "Created"⟩ = .error ⟨201, "Created"⟩ ∧
    200 ≤ 201 ∧ 201 < 300 := by
  refine ⟨by decide, by decide, by decide, by decide⟩

/-- C7 amended: each fetch helper raises if and only if the status
code differs from 200 (2xx statuses other than 200 also raise); the
raised error carries the status code and the response body, and a 200
response is returned unchanged. -/
theorem c7_amended_raise_iff_not_200 (r : HttpResponse) :
    (get_data_from_goodreads_api r = .ok r ↔ r.status_code = 200) ∧
    (get_data_from_goodreads_site r = .ok r ↔ r.status_code = 200) ∧
    (r.status_code ≠ 200 →
      get_data_from_goodreads_api r = .error ⟨r.status_code, r.text⟩ ∧
      get_data_from_goodreads_site r = .error ⟨r.status_code, r.text⟩) := by
  unfold get_data_from_goodreads_api get_data_from_goodreads_site
  by_cases h : r.status_code = 200 <;> simp [h]

/-- C7 witness: the amended statement applied to a 404 response. -/
theorem c7_amended_witness :
    get_data_from_goodreads_api ⟨404, "not found"⟩ = .error ⟨404, "not found"⟩ :=
  ((c7_amended_raise_iff_not_200 ⟨404, "not found"⟩).2.2 (by decide)).1

/-! ## Claims about convert_page_count -/

/-- C8 counterexample: a present but non-numeric page count raises an
uncaught ValueError (only TypeError is caught), instead of returning
null as claimed. -/
theorem c8_counterexample_nonnumeric_raises :
    convert_page_count (some "unknown") = .exn "ValueError" := by decide

/-- C8 amended: an absent text yields null (int(None) raises
TypeError, which is caught); a numeric text yields its integer value;
a present non-numeric text raises an uncaught ValueError. -/
theorem c8_amended_page_count (s : String) :
    convert_page_count none = .ok none ∧
    (∀ n : ℤ, pyInt s = .ok n → convert_page_count (some s) = .ok (some n)) ∧
    (∀ m, pyInt s = .exn m → convert_page_count (some s) = .exn m) := by
  refine ⟨rfl, ?_, ?_⟩ <;> intro x h <;> simp [convert_page_count, h]

/-- C8 witness: the amended statement applied to the numeric text
"216". -/
theorem c8_amended_witness :
    convert_page_count (some "216") = .ok (some 216) :=
  (c8_amended_page_count "216").2.1 216 (by decide)

/-! ## The pagination loop: supporting lemmas -/

theorem statusLoop_of_le (extract : α → β) (site : ℕ → StatusPage α)
    (total fuel : ℕ) (acc : List β) (k : ℕ) (h : total ≤ acc.length) :
    statusLoop extract site total fuel acc k = some acc := by
  cases fuel <;> · unfold statusLoop; rw [if_pos h]

theorem statusLoop_sound (extract : α → β) (site : ℕ → StatusPage α)
    (total : ℕ) :
    ∀ fuel (acc : List β) (k : ℕ) l,
      statusLoop extract site total fuel acc k = some l →
      ∃ n, l = acc ++ fetchedRecords extract site k n ∧
        total ≤ acc.length + (fetchedRecords extract site k n).length := by
  intro fuel
  induction fuel with
  | zero =>
      intro acc k l h
      unfold statusLoop at h
      split at h
      · injection h with h
        subst h
        exact ⟨0, by simp [fetchedRecords], by simpa [fetchedRecords] using ‹_›⟩
      · cases h
  | succ f ih =>
      intro acc k l h
      unfold statusLoop at h
      split at h
      · injection h with h
        subst h
        exact ⟨0, by simp [fetchedRecords], by simpa [fetchedRecords] using ‹_›⟩
      · obtain ⟨n, hl, hlen⟩ := ih _ _ _ h
        refine ⟨n + 1, ?_, ?_⟩
        · rw [hl]; simp [fetchedRecords]
        · simp only [fetchedRecords, List.length_append] at hlen ⊢
          omega

theorem statusLoop_complete (extract : α → β) (site : ℕ → StatusPage α)
    (total : ℕ) :
    ∀ n fuel (acc : List β) (k : ℕ), n ≤ fuel →
      total ≤ acc.length + (fetchedRecords extract site k n).length →
      ∃ l, statusLoop extract site total fuel acc k = some l := by
  intro n
  induction n with
  | zero =>
      intro fuel acc k _ h
      simp only [fetchedRecords, List.length_nil, Nat.add_zero] at h
      exact ⟨acc, statusLoop_of_le extract site total fuel acc k h⟩
  | succ n ih =>
      intro fuel acc k hfuel h
      match fuel with
      | 0 => omega
      | f + 1 =>
        by_cases hc : total ≤ acc.length
        · exact ⟨acc, statusLoop_of_le extract site total (f + 1) acc k hc⟩
        · unfold statusLoop
          rw [if_neg hc]
          apply ih f _ (k + 1) (by omega)
          simp only [fetchedRecords, List.length_append] at h ⊢
          omega

theorem statusLoop_congr (extract : α → β) (site site' : ℕ → StatusPage α)
    (total : ℕ) (h : ∀ k, 1 ≤ k → site' k = site k) :
    ∀ fuel (acc : List β) (k : ℕ), 1 ≤ k →
      statusLoop extract site' total fuel acc k =
        statusLoop extract site total fuel acc k := by
  intro fuel
  induction fuel with
  | zero => intro acc k _; rfl
  | succ f ih =>
      intro acc k hk
      unfold statusLoop
      split
      · rfl
      · rw [h k hk, ih _ (k + 1) (by omega)]

/-! ## Claims about the pagination loop -/

/-- C4 counterexample: with one declared status, a block present only
on page 0 and a different block on page 1, the result contains only
the page 1 block: the status blocks of the initially fetched page are
never extracted, contradicting the claim that they are appended before
later pages are fetched. -/
theorem c4_counterexample_page0_blocks_dropped :
    get_statuses id demoSite 3 = .ok (some ["page1 block"]) ∧
    "page0 block" ∉ ["page1 block"] := by
  refine ⟨by decide, by decide⟩

/-- C4 amended: the initially fetched page 0 contributes only the
declared total parsed from its header text (its status blocks are
never extracted: any two sites agreeing on the page 0 header and on
every page from 1 on produce the same result), and a terminating run
returns exactly the concatenation of the extracted blocks of the pages
the loop fetched, which start at page 1. -/
theorem c4_amended_page0_header_only (extract : α → β)
    (site site' : ℕ → StatusPage α) (fuel : ℕ) (l : List β)
    (hheader : (site' 0).headerText = (site 0).headerText)
    (hrest : ∀ k, 1 ≤ k → site' k = site k) :
    get_statuses extract site' fuel = get_statuses extract site fuel ∧
    (get_statuses extract site fuel = .ok (some l) →
      ∃ n, l = fetchedRecords extract site 1 n) := by
  constructor
  · unfold get_statuses
    rw [hheader]
    cases parseStatusTotal (site 0).headerText with
    | exn m => rfl
    | ok t =>
        dsimp only
        rw [statusLoop_congr extract site site' t.toNat hrest fuel [] 1 le_rfl]
  · intro h
    unfold get_statuses at h
    cases hp : parseStatusTotal (site 0).headerText with
    | exn m => rw [hp] at h; cases h
    | ok t =>
        rw [hp] at h
        injection h with h
        obtain ⟨n, hl, -⟩ := statusLoop_sound extract site t.toNat fuel [] 1 l h
        exact ⟨n, by simpa using hl⟩

/-- C4 witness: the amended statement applied to demoSite and a
variant with different page 0 blocks. -/
theorem c4_amended_witness :
    get_statuses id
        (fun k => if k = 0 then ⟨"Showing 1-1 of 1", []⟩ else demoSite k) 3 =
      get_statuses id demoSite 3 :=
  (c4_amended_page0_header_only id demoSite
    (fun k => if k = 0 then ⟨"Showing 1-1 of 1", []⟩ else demoSite k) 3 []
    (by decide) (fun k hk => by
      have : k ≠ 0 := by omega
      simp [this])).1

/-- C5: the loop terminates exactly when the accumulated record count
reaches or exceeds the declared total parsed from the first page
header (some fuel suffices iff some number of fetched pages supplies
enough records); a declared total of 0 terminates with the empty
collection after the initial fetch alone, for every fuel; and if the
fetched pages never supply enough records the loop runs forever (no
fuel ever suffices). -/
theorem c5_termination_policy (extract : α → β) (site : ℕ → StatusPage α)
    (t : ℤ) (hparse : parseStatusTotal (site 0).headerText = .ok t) :
    ((∃ fuel l, get_statuses extract site fuel = .ok (some l)) ↔
      ∃ n, t.toNat ≤ (fetchedRecords extract site 1 n).length) ∧
    (t = 0 → ∀ fuel, get_statuses extract site fuel = .ok (some [])) ∧
    ((∀ n, (fetchedRecords extract site 1 n).length < t.toNat) →
      ∀ fuel, get_statuses extract site fuel = .ok none) := by
  have hget : ∀ fuel, get_statuses extract site fuel =
      .ok (statusLoop extract site t.toNat fuel [] 1) := by
    intro fuel; unfold get_statuses; rw [hparse]
  refine ⟨⟨?_, ?_⟩, ?_, ?_⟩
  · rintro ⟨fuel, l, h⟩
    rw [hget fuel] at h
    injection h with h
    obtain ⟨n, -, hlen⟩ := statusLoop_sound extract site t.toNat fuel [] 1 l h
    exact ⟨n, by simpa using hlen⟩
  · rintro ⟨n, hn⟩
    obtain ⟨l, hl⟩ := statusLoop_complete extract site t.toNat n n [] 1 le_rfl
      (by simpa using hn)
    exact ⟨n, l, by rw [hget n, hl]⟩
  · intro ht fuel
    rw [hget fuel]
    subst ht
    rw [statusLoop_of_le extract site _ fuel [] 1 (by simp)]
  · intro hnever fuel
    rw [hget fuel]
    cases hl : statusLoop extract site t.toNat fuel [] 1 with
    | none => rfl
    | some l =>
        obtain ⟨n, -, hlen⟩ := statusLoop_sound extract site t.toNat fuel [] 1 l hl
        have := hnever n
        simp only [List.length_nil, Nat.zero_add] at hlen
        omega

/-- C5 witness: a declared total of zero terminates immediately with
the empty collection. -/
theorem c5_termination_witness :
    get_statuses id demoEmptySite 0 = .ok (some []) :=
  (c5_termination_policy id demoEmptySite 0 (by decide)).2.1 rfl 0

/-! ## The book link: supporting lemmas -/

theorem getLastD_map_mk :
    ∀ (l : List (List Char)) (d : List Char),
      ((l.map String.mk).getLastD (String.mk d)) = String.mk (l.getLastD d) := by
  intro l
  induction l with
  | nil => intro d; rfl
  | cons a l ih =>
      intro d
      simp only [List.map_cons, List.getLastD_cons]
      exact ih a

theorem pySplitAux_headD (sep : List Char) :
    ∀ (fuel : ℕ) (l acc : List Char), l.length ≤ fuel →
      (pySplitAux sep fuel acc l).headD [] = acc.reverse ++ specCutAt sep l := by
  intro fuel
  induction fuel with
  | zero =>
      intro l acc h
      have : l = [] := by
        cases l with
        | nil => rfl
        | cons c cs => simp at h
      subst this
      simp [pySplitAux, specCutAt]
  | succ f ih =>
      intro l acc h
      cases l with
      | nil => simp [pySplitAux, specCutAt]
      | cons c cs =>
          unfold pySplitAux specCutAt
          by_cases hp : sep.isPrefixOf (c :: cs)
          · simp [hp]
          · simp only [hp, if_neg, Bool.false_eq_true, ite_false]
            rw [ih cs (c :: acc) (by simpa using h)]
            simp

theorem bookIdOfHref_eq_spec (href : String) :
    bookIdOfHref href = specBookIdentifier href := by
  unfold bookIdOfHref specBookIdentifier pySplit
  have hlast : ((pySplitAux "/".data href.data.length [] href.data).map
      String.mk).getLastD "" =
      String.mk ((pySplitAux "/".data href.data.length [] href.data).getLastD []) :=
    getLastD_map_mk _ []
  rw [hlast]
  set seg : List Char :=
    (pySplitAux "/".data href.data.length [] href.data).getLastD [] with hseg
  have hdata : (String.mk seg).data = seg := rfl
  rw [hdata]
  have hhead : ∀ (l : List (List Char)),
      (l.map String.mk).headD "" = String.mk (l.headD []) := by
    intro l; cases l <;> rfl
  rw [hhead, pySplitAux_headD "-.".data seg.length seg [] le_rfl]
  simp

/-! ## Claim about the book title and identifier -/

/-- C6: whenever the header sub-block contains an inner link marked
rel="nofollow" carrying an href, the extractor returns exactly the
(stripped) text of that link as the book title, and as book identifier
the final path segment of the href with any trailing suffix introduced
by the "-." separator stripped. -/
theorem c6_book_title_and_identifier (fuel : ℕ) (el link : Node) (href : String)
    (hfind : findDepth isNofollowLink fuel el.childrenOf = some link)
    (hhref : link.attr "href" = some href) :
    extractBookInfo fuel el = .ok (convert_body fuel link, specBookIdentifier href) := by
  unfold extractBookInfo
  rw [hfind]
  dsimp only
  rw [hhref]
  dsimp only
  rw [bookIdOfHref_eq_spec]

/-- C6 witness: the extraction applied to the header fragment
documented in the source comment. -/
theorem c6_witness :
    extractBookInfo 3 demoHeader =
      .ok ("The Hitchhikers Guide to the Galaxy", "11.The_Hitchhikers_Guide") := by
  rw [c6_book_title_and_identifier 3 demoHeader demoBookLink
    "https://www.goodreads.com/book/show/11.The_Hitchhikers_Guide" rfl rfl]
  rfl

/-! ## Review records: supporting lemmas -/

theorem lookup_eq_none_iff (d : ReviewDict) (k : String) :
    d.lookup k = none ↔ k ∉ d.map Prod.fst := by
  induction d with
  | nil => simp
  | cons a d ih =>
      simp only [List.lookup, List.map_cons, List.mem_cons]
      by_cases h : k = a.1
      · simp [h]
      · have : (k == a.1) = false := by simpa using h
        simp [this, ih, h]

theorem dictSet_keys (d : ReviewDict) (k : String) (v : PyVal) :
    (dictSet d k v).map Prod.fst =
      if k ∈ d.map Prod.fst then d.map Prod.fst else d.map Prod.fst ++ [k] := by
  unfold dictSet
  by_cases h : k ∈ d.map Prod.fst
  · have : (d.lookup k).isSome = true := by
      rw [Option.isSome_iff_ne_none]
      intro hn
      exact ((lookup_eq_none_iff d k).mp hn) h
    rw [if_pos this, if_pos h, List.map_map]
    apply List.map_congr_left
    intro kv _
    by_cases hk : kv.1 = k
    · simp [hk]
    · simp [hk]
  · have : ¬(d.lookup k).isSome = true := by
      rw [Option.isSome_iff_ne_none]
      simp only [ne_eq, not_not]
      exact (lookup_eq_none_iff d k).mpr h
    rw [if_neg this, if_neg h]
    simp

theorem convertTag_keys (mapping : String → Option (String × (Xml → PyResult PyVal)))
    (e : Xml) (data d : ReviewDict) (h : convertTag mapping e data = .ok d)
    (k : String) (hk : k ∈ d.map Prod.fst) :
    k ∈ data.map Prod.fst ∨ ∃ p, mapping e.tag = some p ∧ p.1 = k := by
  unfold convertTag at h
  cases hm : mapping e.tag with
  | none => rw [hm] at h; injection h with h; subst h; exact Or.inl hk
  | some p =>
      rw [hm] at h
      dsimp only at h
      cases hc : p.2 e with
      | exn m => rw [hc] at h; cases h
      | ok v =>
          rw [hc] at h
          injection h with h
          subst h
          rw [dictSet_keys] at hk
          split at hk
          · exact Or.inl hk
          · rcases List.mem_append.mp hk with hk | hk
            · exact Or.inl hk
            · simp only [List.mem_singleton] at hk
              exact Or.inr ⟨p, rfl, hk.symm⟩

theorem convertList_keys (mapping : String → Option (String × (Xml → PyResult PyVal))) :
    ∀ (es : List Xml) (data d : ReviewDict), convertList mapping es data = .ok d →
      ∀ k, k ∈ d.map Prod.fst →
        k ∈ data.map Prod.fst ∨ ∃ b ∈ es, ∃ p, mapping b.tag = some p ∧ p.1 = k := by
  intro es
  induction es with
  | nil =>
      intro data d h k hk
      unfold convertList at h
      injection h with h
      subst h
      exact Or.inl hk
  | cons e es ih =>
      intro data d h k hk
      unfold convertList at h
      cases hstep : convertTag mapping e data with
      | exn m => rw [hstep] at h; cases h
      | ok d1 =>
          rw [hstep] at h
          rcases ih d1 d h k hk with h1 | ⟨b, hb, hp⟩
          · rcases convertTag_keys mapping e data d1 hstep k h1 with h2 | ⟨p, hp, hk2⟩
            · exact Or.inl h2
            · exact Or.inr ⟨e, List.mem_cons_self e es, p, hp, hk2⟩
          · exact Or.inr ⟨b, List.mem_cons_of_mem e hb, hp⟩

theorem reviewLoop_keys :
    ∀ (es : List Xml) (data d : ReviewDict), reviewLoop es data = .ok d →
      ∀ k, k ∈ d.map Prod.fst →
        k ∈ data.map Prod.fst ∨
          ∃ c ∈ es,
            (c.tag = "book" ∧ ∃ b ∈ c.childList, ∃ p, book_tags b.tag = some p ∧ p.1 = k) ∨
            (c.tag ≠ "book" ∧ ∃ p, review_tags c.tag = some p ∧ p.1 = k) := by
  intro es
  induction es with
  | nil =>
      intro data d h k hk
      unfold reviewLoop at h
      injection h with h
      subst h
      exact Or.inl hk
  | cons e es ih =>
      intro data d h k hk
      unfold reviewLoop at h
      cases hstep : reviewStep e data with
      | exn m => rw [hstep] at h; cases h
      | ok d1 =>
          rw [hstep] at h
          rcases ih d1 d h k hk with h1 | ⟨c, hc, hcase⟩
          · unfold reviewStep at hstep
            by_cases hbook : e.tag = "book"
            · rw [if_pos hbook] at hstep
              rcases convertList_keys book_tags e.childList data d1 hstep k h1 with
                h2 | ⟨b, hb, hp⟩
              · exact Or.inl h2
              · exact Or.inr ⟨e, List.mem_cons_self e es, Or.inl ⟨hbook, b, hb, hp⟩⟩
            · rw [if_neg hbook] at hstep
              rcases convertTag_keys review_tags e data d1 hstep k h1 with h2 | ⟨p, hp, hk2⟩
              · exact Or.inl h2
              · exact Or.inr ⟨e, List.mem_cons_self e es, Or.inr ⟨hbook, p, hp, hk2⟩⟩
          · exact Or.inr ⟨c, List.mem_cons_of_mem e hc, hcase⟩

theorem review_tags_key_my_rating (t : String) (p : String × (Xml → PyResult PyVal))
    (h : review_tags t = some p) (hk : p.1 = "my_rating") : t = "rating" := by
  unfold review_tags at h
  split_ifs at h with h1 h2 h3 h4 h5
  all_goals try (injection h with h; subst h)
  all_goals first
    | exact h4
    | exact absurd hk (by decide)

theorem review_tags_key_review (t : String) (p : String × (Xml → PyResult PyVal))
    (h : review_tags t = some p) (hk : p.1 = "review") : t = "body" := by
  unfold review_tags at h
  split_ifs at h with h1 h2 h3 h4 h5
  all_goals try (injection h with h; subst h)
  all_goals first
    | exact h3
    | exact absurd hk (by decide)

set_option maxHeartbeats 1000000 in
theorem book_tags_key_ne (t : String) (p : String × (Xml → PyResult PyVal))
    (h : book_tags t = some p) : p.1 ≠ "my_rating" ∧ p.1 ≠ "review" := by
  unfold book_tags at h
  split_ifs at h
  all_goals try (injection h with h; subst h)
  all_goals exact ⟨by decide, by decide⟩

theorem filterEmptyReviews_cons (d : ReviewDict) (rest : List ReviewDict) :
    filterEmptyReviews (d :: rest) =
      match keepReview d with
      | .exn m => .exn m
      | .ok keep =>
          match filterEmptyReviews rest with
          | .exn m => .exn m
          | .ok l => .ok (if keep then d :: l else l) := rfl

theorem convertReview_no_rating_key (r : Xml) (d : ReviewDict)
    (h : convertReview r = .ok d) (hb : ∀ c ∈ r.childList, c.tag ≠ "rating") :
    d.lookup "my_rating" = none := by
  rw [lookup_eq_none_iff]
  intro hk
  rcases reviewLoop_keys r.childList [] d h "my_rating" hk with h1 | ⟨c, hc, hcase⟩
  · simp at h1
  · rcases hcase with ⟨-, b, -, p, hp, hk2⟩ | ⟨-, p, hp, hk2⟩
    · exact (book_tags_key_ne b.tag p hp).1 hk2
    · exact hb c hc (review_tags_key_my_rating c.tag p hp hk2)

theorem convertReview_no_review_key (r : Xml) (d : ReviewDict)
    (h : convertReview r = .ok d) (hb : ∀ c ∈ r.childList, c.tag ≠ "body") :
    d.lookup "review" = none := by
  rw [lookup_eq_none_iff]
  intro hk
  rcases reviewLoop_keys r.childList [] d h "review" hk with h1 | ⟨c, hc, hcase⟩
  · simp at h1
  · rcases hcase with ⟨-, b, -, p, hp, hk2⟩ | ⟨-, p, hp, hk2⟩
    · exact (book_tags_key_ne b.tag p hp).2 hk2
    · exact hb c hc (review_tags_key_review c.tag p hp hk2)

/-! ## Claim about missing rating or body children -/

/-- C10 counterexample: a review with a rating child of "4" and no
body child converts to a record without the "review" key, yet the
writer with keep-empty false KEEPS it without any key-lookup error,
because d["my_rating"] is truthy and the or short-circuits before
d["review"] is evaluated. -/
theorem c10_counterexample_truthy_rating_no_body :
    convertReview demoRatingOnlyReview = .ok [("my_rating", PyVal.int 4)] ∧
    List.lookup "review" [("my_rating", PyVal.int 4)] = none ∧
    write_reviews_to_disk [[("my_rating", PyVal.int 4)]] false =
      .ok [[("my_rating", PyVal.int 4)]] := by
  refine ⟨by decide, by decide, by decide⟩

/-- C10 amended: the conversion is a whitelist projection, so a review
without a rating child yields a record without the "my_rating" key and
one without a body child yields a record without the "review" key.
The writer with keep-empty false fails with a key-lookup error on
every record missing "my_rating"; on a record that has a "my_rating"
value but no "review" key it fails iff that value is falsy, and keeps
the record without touching "review" when the value is truthy. -/
theorem c10_amended_keyerror_only_when_reached (r : Xml) (d : ReviewDict)
    (rest : List ReviewDict) (h : convertReview r = .ok d) :
    ((∀ c ∈ r.childList, c.tag ≠ "rating") →
      d.lookup "my_rating" = none ∧
      filterEmptyReviews (d :: rest) = .exn "KeyError: my_rating") ∧
    ((∀ c ∈ r.childList, c.tag ≠ "body") →
      d.lookup "review" = none ∧
      (∀ v, d.lookup "my_rating" = some v → truthy v = true →
        filterEmptyReviews (d :: rest) =
          match filterEmptyReviews rest with
          | .ok l => .ok (d :: l)
          | .exn m => .exn m) ∧
      (∀ v, d.lookup "my_rating" = some v → truthy v = false →
        filterEmptyReviews (d :: rest) = .exn "KeyError: review")) := by
  constructor
  · intro hb
    have hnone := convertReview_no_rating_key r d h hb
    refine ⟨hnone, ?_⟩
    have hkeep : keepReview d = .exn "KeyError: my_rating" := by
      unfold keepReview; rw [hnone]
    rw [filterEmptyReviews_cons, hkeep]
  · intro hb
    have hnone := convertReview_no_review_key r d h hb
    refine ⟨hnone, ?_, ?_⟩
    · intro v hv htruthy
      have hkeep : keepReview d = .ok true := by
        unfold keepReview; rw [hv]; simp [htruthy]
      rw [filterEmptyReviews_cons, hkeep]
      cases filterEmptyReviews rest <;> simp
    · intro v hv hfalsy
      have hkeep : keepReview d = .exn "KeyError: review" := by
        unfold keepReview
        rw [hv]
        simp only [hfalsy, Bool.false_eq_true, if_false]
        rw [hnone]
      rw [filterEmptyReviews_cons, hkeep]

/-- C10 witness: the amended statement applied to a review with only a
body child (no rating): the writer fails with the my_rating key
error. -/
theorem c10_amended_witness :
    filterEmptyReviews [[("review", PyVal.str "Nice book.")]] =
      .exn "KeyError: my_rating" :=
  ((c10_amended_keyerror_only_when_reached demoBodyOnlyReview
      [("review", PyVal.str "Nice book.")] [] (by decide)).1
    (by
      intro c hc
      simp only [demoBodyOnlyReview, Xml.childList, List.mem_singleton] at hc
      subst hc
      decide)).2

/-! ## The binary64 model: bounds -/

theorem roundNearestEven_le (N D K : ℕ) (hD : 0 < D) (h : N ≤ K * D) :
    roundNearestEven N D ≤ K := by
  unfold roundNearestEven
  have hq : N / D ≤ K := by
    calc N / D ≤ K * D / D := Nat.div_le_div_right h
      _ = K := Nat.mul_div_left K hD
  by_cases hqK : N / D = K
  · have hmod := Nat.div_add_mod N D
    rw [hqK] at hmod
    rw [Nat.mul_comm K D] at h
    have hr : N % D = 0 := by omega
    rw [hr]
    rw [if_pos (by omega)]
    exact hq
  · have hq1 : N / D + 1 ≤ K := by omega
    dsimp only
    split_ifs <;> omega

theorem log2Fuel_le : ∀ fuel n, 0 < n → n ≤ fuel → 2 ^ log2Fuel fuel n ≤ n := by
  intro fuel
  induction fuel with
  | zero => intro n h1 h2; omega
  | succ f ih =>
      intro n h1 h2
      unfold log2Fuel
      by_cases hn : n ≤ 1
      · rw [if_pos hn]
        simpa using h1
      · rw [if_neg hn]
        have h3 : 0 < n / 2 := by omega
        have h4 : n / 2 ≤ f := by omega
        have h5 := ih (n / 2) h3 h4
        have h6 : 2 ^ log2Fuel f (n / 2) * 2 ≤ (n / 2) * 2 :=
          Nat.mul_le_mul_right 2 h5
        rw [pow_succ]
        omega

theorem natLog2_le (n : ℕ) (h : 0 < n) : 2 ^ natLog2 n ≤ n :=
  log2Fuel_le n n h le_rfl

theorem natLog2_le_of_lt (n k : ℕ) (h1 : 0 < n) (h2 : n < 2 ^ (k + 1)) :
    natLog2 n ≤ k := by
  by_contra hcon
  push_neg at hcon
  have hle := natLog2_le n h1
  have h3 : (2 : ℕ) ^ (k + 1) ≤ 2 ^ natLog2 n :=
    Nat.pow_le_pow_right (by omega) (by omega)
  omega

theorem fracLog2_le (n d K k : ℕ) (hd : 0 < d) (hn : n ≤ K * d)
    (hK : K < 2 ^ (k + 1)) : fracLog2 n d ≤ (k : ℤ) := by
  unfold fracLog2
  by_cases hdn : d ≤ n
  · rw [if_pos hdn]
    have h1 : 0 < n / d := (Nat.one_le_div_iff hd).mpr hdn
    have h2 : n / d ≤ K := by
      calc n / d ≤ K * d / d := Nat.div_le_div_right hn
        _ = K := Nat.mul_div_left K hd
    have h3 := natLog2_le_of_lt (n / d) k h1 (by omega)
    exact_mod_cast h3
  · rw [if_neg hdn]
    have h4 : (0 : ℤ) ≤ (clog2Fuel d n d : ℤ) := Int.ofNat_nonneg _
    omega

theorem fracLog2_nonpos (a b : ℕ) (hb : 0 < b) (hab : a ≤ b) :
    fracLog2 a b ≤ 0 := by
  unfold fracLog2
  by_cases hba : b ≤ a
  · rw [if_pos hba]
    have hv : a = b := Nat.le_antisymm hab hba
    subst hv
    rw [Nat.div_self hb]
    have : natLog2 1 ≤ 0 := natLog2_le_of_lt 1 0 (by omega) (by omega)
    omega
  · rw [if_neg hba]
    have : (0 : ℤ) ≤ (clog2Fuel b a b : ℤ) := Int.ofNat_nonneg _
    omega

/-- The percentage computed from a page ratio of at most one is at most
100 also under the exact binary64 model: both roundings stay below
representable bounds and the truncation cannot exceed 100. -/
theorem pyPercentage_le_100 (a b : ℕ) (hb : 0 < b) (hab : a ≤ b) :
    pyPercentage a b ≤ 100 := by
  unfold pyPercentage fpOfFrac
  by_cases ha : a = 0
  · rw [if_pos ha]
    decide
  · rw [if_neg ha]
    unfold fpRound
    set e1 := fracLog2 a b with he1
    have he1le : e1 ≤ 0 := fracLog2_nonpos a b hb hab
    rw [if_pos (by omega : e1 ≤ 52)]
    set P := 2 ^ (52 - e1).toNat with hP
    have hPpos : 0 < P := Nat.pos_pow_of_pos _ (by omega)
    set m1 := roundNearestEven (a * P) b with hm1
    have hm1le : m1 ≤ P := by
      apply roundNearestEven_le (a * P) b P hb
      rw [Nat.mul_comm P b]
      exact Nat.mul_le_mul_right P hab
    unfold fpMulNat
    dsimp only
    by_cases hm0 : m1 * 100 = 0
    · rw [if_pos hm0]
      decide
    · rw [if_neg hm0, if_neg (by omega : ¬(52 : ℤ) ≤ e1)]
      unfold fpRound
      set e2 := fracLog2 (m1 * 100) P with he2
      have he2le : e2 ≤ 6 := by
        apply fracLog2_le (m1 * 100) P 100 6 hPpos
        · rw [Nat.mul_comm 100 P]
          exact Nat.mul_le_mul_right 100 hm1le
        · omega
      rw [if_pos (by omega : e2 ≤ 52)]
      set Q := 2 ^ (52 - e2).toNat with hQ
      have hQpos : 0 < Q := Nat.pos_pow_of_pos _ (by omega)
      set m2 := roundNearestEven (m1 * 100 * Q) P with hm2
      have hm2le : m2 ≤ 100 * Q := by
        apply roundNearestEven_le (m1 * 100 * Q) P (100 * Q) hPpos
        calc m1 * 100 * Q ≤ P * 100 * Q := by
              exact Nat.mul_le_mul_right Q (Nat.mul_le_mul_right 100 hm1le)
          _ = 100 * Q * P := by ring
      unfold fpTruncNat
      dsimp only
      rw [if_neg (by omega : ¬(52 : ℤ) ≤ e2)]
      calc m2 / Q ≤ 100 * Q / Q := Nat.div_le_div_right hm2le
        _ = 100 := Nat.mul_div_left 100 hQpos

/-! ## Shapes of the captured groups -/

theorem matchAlt_digits (u : List Char) (r : Option (List Char))
    (h : matchAlt u = some r) (l : List Char) (hr : r = some l) :
    ∀ c ∈ l, c.isDigit := by
  subst hr
  unfold matchAlt at h
  dsimp only at h
  split_ifs at h with h1 h2 h3
  all_goals dsimp only at h
  all_goals first
    | (injection h with h; injection h with h; subst h;
       intro c hc; exact List.mem_takeWhile_imp hc)
    | (injection h with h; cases h)

theorem matchValue_shape (t : List Char) (g1 : List Char) (g2 : Option (List Char))
    (h : matchValue t = some (g1, g2)) :
    ((∀ c ∈ g1, c.isDigit) ∨
      ∃ ds, g1 = ds ++ ['%'] ∧ ∀ c ∈ ds, c.isDigit) ∧
    (∀ l, g2 = some l → ∀ c ∈ l, c.isDigit) := by
  unfold matchValue at h
  dsimp only at h
  split at h
  · rename_i r' heq
    injection h with h
    subst h
    split at heq
    · rename_i u hu
      split at heq
      · rename_i g2' halt
        injection heq with heq
        rw [Prod.mk.injEq] at heq
        obtain ⟨hg1, hg2⟩ := heq
        constructor
        · refine Or.inr ⟨t.takeWhile Char.isDigit, hg1.symm, ?_⟩
          intro c hc
          exact List.mem_takeWhile_imp hc
        · intro l hl
          exact matchAlt_digits u g2' halt l (by rw [hg2, hl])
      · cases heq
    · cases heq
  · split at h
    · rename_i u hu
      split at h
      · rename_i g2' halt
        injection h with h
        rw [Prod.mk.injEq] at h
        obtain ⟨hg1, hg2⟩ := h
        constructor
        · refine Or.inl ?_
          intro c hc
          rw [← hg1] at hc
          exact List.mem_takeWhile_imp hc
        · intro l hl
          exact matchAlt_digits u g2' halt l (by rw [hg2, hl])
      · cases h
    · cases h

theorem matchAfterIs_shape (t : List Char) (g1 : List Char)
    (g2 : Option (List Char)) (h : matchAfterIs t = some (g1, g2)) :
    ((∀ c ∈ g1, c.isDigit) ∨
      ∃ ds, g1 = ds ++ ['%'] ∧ ∀ c ∈ ds, c.isDigit) ∧
    (∀ l, g2 = some l → ∀ c ∈ l, c.isDigit) := by
  unfold matchAfterIs at h
  dsimp only at h
  split at h
  · rename_i r' heq
    injection h with h
    subst h
    split_ifs at heq with h1
    exact matchValue_shape _ _ _ heq
  · exact matchValue_shape _ _ _ h

theorem tryAt_shape (s : List Char) (p : ℕ) (g1 : List Char)
    (g2 : Option (List Char)) (h : tryAt s p = some (g1, g2)) :
    ((∀ c ∈ g1, c.isDigit) ∨
      ∃ ds, g1 = ds ++ ['%'] ∧ ∀ c ∈ ds, c.isDigit) ∧
    (∀ l, g2 = some l → ∀ c ∈ l, c.isDigit) := by
  unfold tryAt at h
  dsimp only at h
  split_ifs at h with h1
  exact matchAfterIs_shape _ _ _ h

theorem searchAux_shape (s : List Char) :
    ∀ (p : ℕ) (g1 : List Char) (g2 : Option (List Char)),
      searchAux s p = some (g1, g2) →
      ((∀ c ∈ g1, c.isDigit) ∨
        ∃ ds, g1 = ds ++ ['%'] ∧ ∀ c ∈ ds, c.isDigit) ∧
      (∀ l, g2 = some l → ∀ c ∈ l, c.isDigit) := by
  intro p
  induction p with
  | zero =>
      intro g1 g2 h
      exact tryAt_shape s 0 g1 g2 h
  | succ p ih =>
      intro g1 g2 h
      unfold searchAux at h
      split at h
      · rename_i r' heq
        injection h with h
        subst h
        exact tryAt_shape s (p + 1) g1 g2 heq
      · exact ih g1 g2 h

theorem searchProgress_shape (s : String) (g1 : String) (g2 : Option String)
    (h : searchProgress s = some (g1, g2)) :
    ((∀ c ∈ g1.data, c.isDigit) ∨
      ∃ ds, g1.data = ds ++ ['%'] ∧ ∀ c ∈ ds, c.isDigit) ∧
    (∀ l, g2 = some l → ∀ c ∈ l.data, c.isDigit) := by
  unfold searchProgress at h
  split at h
  · rename_i g1' g2' heq
    injection h with h
    rw [Prod.mk.injEq] at h
    obtain ⟨hg1, hg2⟩ := h
    obtain ⟨hs1, hs2⟩ := searchAux_shape s.data s.data.length g1' g2' heq
    constructor
    · rw [← hg1]
      exact hs1
    · intro l hl
      cases g2' with
      | none => rw [← hg2] at hl; cases hl
      | some l' =>
          have : l = String.mk l' := by
            rw [← hg2] at hl
            injection hl with hl
            exact hl.symm
          rw [this]
          exact hs2 l' rfl
  · cases h

/-! ## Signs of parsed integers -/

theorem pyStripChars_subset (l : List Char) (c : Char)
    (h : c ∈ pyStripChars l) : c ∈ l := by
  unfold pyStripChars at h
  rw [List.mem_reverse] at h
  have h2 := (List.dropWhile_sublist Char.isWhitespace).mem h
  rw [List.mem_reverse] at h2
  exact (List.dropWhile_sublist Char.isWhitespace).mem h2

theorem pyInt_nonneg (s : String) (z : ℤ) (h : pyInt s = .ok z)
    (hnm : ('-' : Char) ∉ s.data) : 0 ≤ z := by
  unfold pyInt at h
  split at h
  · cases h
  · rename_i ds heq
    exfalso
    apply hnm
    apply pyStripChars_subset s.data
    rw [heq]
    exact List.mem_cons_self _ _
  · split_ifs at h
    injection h with h
    omega
  · split_ifs at h
    injection h with h
    omega


theorem mem_of_getLast?_eq (l : List Char) (a : Char)
    (h : l.getLast? = some a) : a ∈ l := by
  have h2 := List.mem_getLast?_eq_getLast (l := l) (x := a) (by rw [h]; rfl)
  obtain ⟨hh, hx⟩ := h2
  rw [hx]
  exact List.getLast_mem hh

/-! ## Claim about the percentage range -/

/-- C3 counterexample: the sentence "is 250% done with ..." contains a
recognized shape, yet the parser returns percentage 250, outside
[0, 100]. -/
theorem c3_counterexample_percentage_above_100 :
    extractProgress "John Smith is 250% done with The Hobbit" =
      .ok ⟨250, none, none⟩ ∧
    ¬((250 : ℤ) ≤ 100) := by
  refine ⟨by decide, by decide⟩

/-- C3 amended: whenever the extraction returns a record, its
percentage is an integer in [0, 100], provided that in the percent
shape the stated percent value is at most 100 and in the page shape
the captured page number is at most the captured total (the code takes
the stated values as given: a percent above 100 or a page number above
the total is reproduced and can exceed 100). -/
theorem c3_amended_percentage_in_range (s : String) (p : Progress)
    (h : extractProgress s = .ok p)
    (hpct : ∀ g1 g2 v, searchProgress s = some (g1, g2) →
      g1.data.getLast? = some '%' →
      pyInt (String.mk g1.data.dropLast) = .ok v → v ≤ 100)
    (hpage : ∀ g1 d2 a b, searchProgress s = some (g1, some d2) →
      pyInt g1 = .ok a → pyInt d2 = .ok b → a ≤ b) :
    0 ≤ p.percentage ∧ p.percentage ≤ 100 := by
  unfold extractProgress at h
  cases hs : searchProgress s with
  | none =>
      rw [hs] at h
      split_ifs at h <;> (injection h with h; subst h; exact ⟨by decide, by decide⟩)
  | some pr =>
      obtain ⟨g1, g2⟩ := pr
      rw [hs] at h
      dsimp only at h
      obtain ⟨hshape1, hshape2⟩ := searchProgress_shape s g1 g2 hs
      cases hlast : g1.data.getLast? with
      | none => rw [hlast] at h; cases h
      | some last =>
          rw [hlast] at h
          dsimp only at h
          by_cases hpc : last = '%'
          · rw [if_pos hpc] at h
            cases hv : pyInt (String.mk g1.data.dropLast) with
            | exn m => rw [hv] at h; cases h
            | ok v =>
                rw [hv] at h
                injection h with h
                subst h
                dsimp only
                constructor
                · rcases hshape1 with hd | ⟨ds, hg1, hds⟩
                  · exfalso
                    have hmem : last ∈ g1.data := mem_of_getLast?_eq g1.data last hlast
                    have := hd last hmem
                    rw [hpc] at this
                    exact absurd this (by decide)
                  · apply pyInt_nonneg _ _ hv
                    rw [hg1, List.dropLast_concat]
                    intro hmem
                    have := hds '-' hmem
                    exact absurd this (by decide)
                · exact hpct g1 g2 v hs (by rw [hlast, hpc]) hv
          · rw [if_neg hpc] at h
            cases g2 with
            | none => cases h
            | some d2 =>
                dsimp only at h
                cases hA : pyInt g1 with
                | exn m => rw [hA] at h; cases h
                | ok a =>
                    rw [hA] at h
                    dsimp only at h
                    cases hB : pyInt d2 with
                    | exn m => rw [hB] at h; cases h
                    | ok b =>
                        rw [hB] at h
                        dsimp only at h
                        by_cases hb0 : b = 0
                        · rw [if_pos hb0] at h; cases h
                        · rw [if_neg hb0] at h
                          injection h with h
                          subst h
                          dsimp only
                          have hab : a ≤ b := hpage g1 d2 a b hs hA hB
                          have hg1d : ('-' : Char) ∉ g1.data := by
                            rcases hshape1 with hd | ⟨ds, hg1, hds⟩
                            · intro hmem
                              exact absurd (hd '-' hmem) (by decide)
                            · exfalso
                              apply hpc
                              have : g1.data.getLast? = some '%' := by
                                rw [hg1]
                                exact List.getLast?_concat ds
                              rw [this] at hlast
                              injection hlast with hlast
                              exact hlast.symm
                          have ha0 : 0 ≤ a := pyInt_nonneg g1 a hA hg1d
                          have hb0' : 0 ≤ b := by
                            apply pyInt_nonneg d2 b hB
                            intro hmem
                            exact absurd (hshape2 d2 rfl '-' hmem) (by decide)
                          constructor
                          · positivity
                          · have hbpos : 0 < b.toNat := by omega
                            have habn : a.toNat ≤ b.toNat := by omega
                            have := pyPercentage_le_100 a.toNat b.toNat hbpos habn
                            omega

/-- C3 witness: the amended statement applied to the page sentence
54 of 216, whose percentage 25 lies in [0, 100]. -/
theorem c3_amended_witness :
    0 ≤ (Progress.mk 25 (some 54) (some 216)).percentage ∧
      (Progress.mk 25 (some 54) (some 216)).percentage ≤ 100 := by
  have hs : searchProgress "John Smith is on page 54 of 216 of The Hobbit" =
      some ("54", some "216") := by decide
  apply c3_amended_percentage_in_range
    "John Smith is on page 54 of 216 of The Hobbit" _ (by decide)
  · intro g1 g2 v hsp hlast hv
    rw [hs] at hsp
    injection hsp with hsp
    rw [Prod.mk.injEq] at hsp
    obtain ⟨hg1, -⟩ := hsp
    rw [← hg1] at hlast
    exact absurd hlast (by decide)
  · intro g1 d2 a b hsp hA hB
    rw [hs] at hsp
    injection hsp with hsp
    rw [Prod.mk.injEq] at hsp
    obtain ⟨hg1, hg2⟩ := hsp
    injection hg2 with hg2
    rw [← hg1] at hA
    rw [← hg2] at hB
    rw [show pyInt "54" = .ok 54 from by decide] at hA
    rw [show pyInt "216" = .ok 216 from by decide] at hB
    injection hA with hA
    injection hB with hB
    omega
